import Mathlib

/-!
Verification of the Syca_v2 voice-assistant core against its
natural-language specification.

The development shallowly embeds the relevant Python source:
* `modules/continuous_voice.py` — the energy-based endpointing loop
  (`ContinuousVoiceInput._process_audio_stream`);
* `pc_server.py` — the host-side endpointing in the websocket handler
  `audio_stream`, and the reply-audio serialization it sends;
* `pi_client.py` — the edge-side decoding of reply audio
  (`PiClient.stream_audio`);
* `modules/hybrid_brain.py` — routing (`_should_use_cloud`), dispatch with
  fallback (`chat`) and streamed dispatch (`chat_stream`);
* `modules/local_llm.py` / `modules/cloud_fallback.py` — the conversation
  history update in each backend's `chat`;
* `modules/local_tts.py` — the sentence segmentation in `speak_stream`.

Python floats are modelled as rationals (`ℚ`); machine byte strings as
`List ℕ` with each element a byte value; Python strings as `List Char`
where character-level work is needed.

Definitions come first, then the theorems.
-/

namespace Syca

/-! ## Audio chunks and energy

A chunk is the list of its mono samples on the [-1,1] normalized scale.
`_process_audio_stream` computes `volume = np.sqrt(np.mean(chunk**2))` and
compares `volume > self.threshold`.  Since `sqrt` is strictly monotone on
nonnegative reals, `sqrt(mean(chunk^2)) > t` (for `t ≥ 0`) holds exactly when
`mean(chunk^2) > t^2`, i.e. `sumSq chunk > t^2 * length chunk` for a nonempty
chunk; for the empty chunk `numpy` yields `nan` and the comparison is false,
which the inequality below also gives.  The comparison is therefore embedded
squared, avoiding square roots. -/

/-- An audio chunk: its mono samples (Python float values modelled as `ℚ`). -/
abbrev Chunk := List ℚ

/-- Sum of squared samples of a chunk. -/
def sumSq (c : Chunk) : ℚ := (c.map (fun x => x * x)).sum

/-- The energy threshold `self.threshold = 0.02` set in
`ContinuousVoiceInput.__init__`. -/
def threshold : ℚ := 1 / 50

/-- The silence limit `self.silence_limit = 2.0` seconds. -/
def silenceLimit : ℚ := 2

/-- `volume > self.threshold` from `_process_audio_stream`, embedded squared:
RMS strictly exceeds 0.02 iff the sum of squares exceeds `0.02^2 · n`. -/
def loud (c : Chunk) : Bool := decide (threshold * threshold * (c.length : ℚ) < sumSq c)

/-! ## The endpointing loop of `ContinuousVoiceInput._process_audio_stream`

Loop state: `speech_buffer` (a list of chunks), `silence_start`
(`None` or a wall-clock time) and the boolean `is_speaking`.  Each iteration
reads one chunk from the queue, the agent-speaking flag
(`self.robot_state.is_speaking`) and the wall clock (`time.time()`), and may
finalize one utterance (the code then transcribes `np.concatenate(buffer)`
and fires the callback; the finalized buffer is the utterance). -/

/-- One loop input: the chunk, the agent-speaking flag value read when the
chunk is processed, and the wall-clock time of processing. -/
structure VIn where
  chunk : Chunk
  flag : Bool
  now : ℚ
deriving DecidableEq

/-- The mutable loop state of `_process_audio_stream`. -/
structure VState where
  speechBuffer : List Chunk
  silenceStart : Option ℚ
  isSpeaking : Bool
deriving DecidableEq

/-- Initial state: empty buffer, no silence timer, not speaking. -/
def VState.init : VState := ⟨[], none, false⟩

/-- One iteration of `_process_audio_stream` on one chunk (lines 100-147 of
`modules/continuous_voice.py`); returns the successor state and the finalized
utterance, if this chunk ends one.  Branches in source order:
agent-speaking gate, `volume > threshold`, silent-while-speaking
(append, start timer if unset, finalize when the elapsed silence strictly
exceeds the limit), silent-while-idle no-op.  In the gate's abort branch the
code clears the buffer and `is_speaking` but leaves `silence_start` as is. -/
def vStep (s : VState) (i : VIn) : VState × Option (List Chunk) :=
  if i.flag then
    if s.isSpeaking then
      ({ speechBuffer := [], silenceStart := s.silenceStart, isSpeaking := false }, none)
    else (s, none)
  else if loud i.chunk then
    ({ speechBuffer := s.speechBuffer ++ [i.chunk], silenceStart := none, isSpeaking := true },
      none)
  else if s.isSpeaking then
    let buf := s.speechBuffer ++ [i.chunk]
    let t0 := s.silenceStart.getD i.now
    if silenceLimit < i.now - t0 then
      (VState.init, some buf)
    else
      ({ speechBuffer := buf, silenceStart := some t0, isSpeaking := s.isSpeaking }, none)
  else (s, none)

/-- Run the loop over a list of inputs, collecting finalized utterances in
arrival order. -/
def vRun (s : VState) : List VIn → VState × List (List Chunk)
  | [] => (s, [])
  | i :: is =>
    let p := vStep s i
    let q := vRun p.1 is
    (q.1, p.2.toList ++ q.2)

/-! ## Host-side endpointing in `pc_server.py`'s `audio_stream`

The websocket handler keeps `audio_buffer` (a list of chunks) and an integer
`silence_count` with `silence_threshold = 8`.  Per received chunk it computes
the same RMS volume and compares `volume > 0.02`; a loud chunk is appended
and zeroes the count; a quiet chunk while `len(audio_buffer) > 0` is appended
and bumps the count, finalizing when `silence_count >= silence_threshold`;
a quiet chunk with an empty buffer is ignored.  There is no agent-speaking
gate and no wall-clock silence timer in this handler. -/

/-- Host handler state: `audio_buffer` and `silence_count`. -/
structure HState where
  buffer : List Chunk
  silenceCount : ℕ
deriving DecidableEq

/-- Initial host state. -/
def HState.init : HState := ⟨[], 0⟩

/-- `silence_threshold = 8` ("2 seconds of silence" at 0.25 s chunks). -/
def silenceThreshold : ℕ := 8

/-- One iteration of the receive loop of `audio_stream`
(`pc_server.py` lines 117-224) on one decoded chunk. -/
def hStep (s : HState) (c : Chunk) : HState × Option (List Chunk) :=
  if loud c then
    ({ buffer := s.buffer ++ [c], silenceCount := 0 }, none)
  else if 0 < s.buffer.length then
    let buf := s.buffer ++ [c]
    let n := s.silenceCount + 1
    if silenceThreshold ≤ n then (HState.init, some buf)
    else ({ buffer := buf, silenceCount := n }, none)
  else (s, none)

/-- Run the host receive loop over a chunk list, collecting finalized
utterances in arrival order. -/
def hRun (s : HState) : List Chunk → HState × List (List Chunk)
  | [] => (s, [])
  | c :: cs =>
    let p := hStep s c
    let q := hRun p.1 cs
    (q.1, p.2.toList ++ q.2)

/-- A chunk list used to compare the two endpointing implementations:
one loud chunk, then eight quiet ones. -/
def hostDemoChunks : List Chunk := [(1 : ℚ)] :: List.replicate 8 [(0 : ℚ)]

/-- The same chunks presented to the co-located engine at the 0.25 s cadence
with the agent-speaking flag clear. -/
def hostDemoTrace : List VIn :=
  (List.range 9).map fun k => ⟨hostDemoChunks.getD k [], false, (k : ℚ) / 4⟩

/-! ## The duplex audio reply frames

Host side (`pc_server.py` lines 198-210): `audio_data, sr = sf.read(path)`
(soundfile's default dtype is float64, so 8 bytes per sample), then the frame
carries `audio_data.tobytes().hex()`.  Edge side (`pi_client.py` lines
147-152): `np.frombuffer(bytes.fromhex(data['data']), dtype=np.float32)` —
the received bytes are reinterpreted four at a time as float32 samples.
Samples are modelled by their bit patterns (`ℕ`), bytes as `ℕ` values;
little-endian byte order on both sides. -/

/-- The 8 little-endian bytes of a float64 sample's bit pattern
(`ndarray.tobytes()` on a float64 array). -/
def f64ToBytes (b : ℕ) : List ℕ := (List.range 8).map fun i => b / 256 ^ i % 256

/-- One hexadecimal digit character for a value below 16 (`bytes.hex()` uses
lowercase). -/
def hexDigit (n : ℕ) : Char :=
  if n < 10 then Char.ofNat (48 + n) else Char.ofNat (87 + n)

/-- `bytes.hex()`: two lowercase hex characters per byte, high nibble
first. -/
def bytesToHex (bs : List ℕ) : List Char :=
  bs.flatMap fun b => [hexDigit (b / 16), hexDigit (b % 16)]

/-- Numeric value of one hex digit character (`bytes.fromhex`). -/
def hexVal (c : Char) : ℕ :=
  if c.toNat ≤ 57 then c.toNat - 48
  else if c.toNat ≤ 70 then c.toNat - 55
  else c.toNat - 87

/-- `bytes.fromhex`: consume hex characters two at a time. -/
def hexToBytes : List Char → List ℕ
  | c₁ :: c₂ :: rest => (16 * hexVal c₁ + hexVal c₂) :: hexToBytes rest
  | _ => []

/-- `np.frombuffer(dtype=np.float32)`: reassemble bytes four at a time into
float32 bit patterns, little-endian. -/
def bytesToF32s : List ℕ → List ℕ
  | b₀ :: b₁ :: b₂ :: b₃ :: rest =>
    (b₀ + 256 * (b₁ + 256 * (b₂ + 256 * b₃))) :: bytesToF32s rest
  | _ => []

/-- The host's serialization of a synthesized reply buffer: float64 samples
to bytes, then hex (`audio_data.tobytes().hex()`). -/
def hostSerializeAudio (samples : List ℕ) : List Char :=
  bytesToHex (samples.flatMap f64ToBytes)

/-- The edge's decoding of an audio frame payload:
`np.frombuffer(bytes.fromhex(data), dtype=np.float32)`. -/
def edgeDecodeAudio (hex : List Char) : List ℕ :=
  bytesToF32s (hexToBytes hex)

/-! ## Routing — `modules/hybrid_brain.py`

`_should_use_cloud` reads `Config.MODE`, a fixed keyword list and
`self.cloud_available`; `chat` tries Local first unless the decision says
cloud, falls through to Cloud on Local failure, and returns a fixed apology
when nothing succeeds.  A backend "succeeds" when its call neither raises nor
returns a falsy value (`None` or the empty string) — `_chat_local` /
`_chat_cloud` turn exceptions into `None`, and `chat` tests `if response:`.
Backend outcomes are supplied as oracles (`Option String`); availability
flags are fixed at construction.  The returned attempt list records which
backends were actually called, in order. -/

/-- `Config.MODE`: `"speed"`, `"quality"` or `"balanced"`. -/
inductive Mode
  | speed
  | quality
  | balanced
deriving DecidableEq

/-- The two backends. -/
inductive Backend
  | localB
  | remoteB
deriving DecidableEq

/-- The `self.stats` counters of `HybridBrain`. -/
structure Stats where
  localRequests : ℕ
  cloudRequests : ℕ
  localFailures : ℕ
  cloudFailures : ℕ
deriving DecidableEq

/-- Availability flags probed in `HybridBrain.__init__`. -/
structure Brain where
  localAvailable : Bool
  cloudAvailable : Bool
  stats : Stats
deriving DecidableEq

/-- `p` occurs as a contiguous run at the start of `s`. -/
def runsAhead : List Char → List Char → Bool
  | [], _ => true
  | _ :: _, [] => false
  | p :: ps, c :: cs => p == c && runsAhead ps cs

/-- Python's `kw in message`: `p` occurs as a contiguous substring of `s`. -/
def hasSub (p : List Char) : List Char → Bool
  | [] => p.isEmpty
  | c :: cs => runsAhead p (c :: cs) || hasSub p cs

/-- `message.lower()` (the messages involved are ASCII). -/
def lowerStr (s : List Char) : List Char := s.map Char.toLower

/-- The `complexity_keywords` list of `_should_use_cloud`. -/
def complexityKeywords : List (List Char) :=
  ["analyze".data, "complex".data, "detailed".data, "explain in depth".data,
    "comprehensive".data, "thorough".data, "research".data, "document".data]

/-- `HybridBrain._should_use_cloud` (lines 185-214): quality forces cloud,
speed forces local, balanced uses cloud iff a keyword occurs in the lowered
message and cloud is available. -/
def shouldUseCloud (mode : Mode) (cloudAvail : Bool) (msg : List Char) : Bool :=
  match mode with
  | .quality => true
  | .speed => false
  | .balanced =>
    (complexityKeywords.any fun kw => hasSub kw (lowerStr msg)) && cloudAvail

/-- The backend named by the routing decision. -/
def routeDecision (mode : Mode) (cloudAvail : Bool) (msg : List Char) : Backend :=
  if shouldUseCloud mode cloudAvail msg then Backend.remoteB else Backend.localB

/-- Python truthiness of a backend outcome: `None` and `""` are falsy. -/
def respTruthy : Option String → Bool
  | none => false
  | some s => !s.isEmpty

/-- The fixed apology returned when no backend succeeds. -/
def apology : String := "I'm having trouble processing that right now. Please try again."

/-- The cloud leg of `HybridBrain.chat` (lines 96-105): if cloud is
available, attempt it, recording success or failure; otherwise return the
apology.  `tried` carries the backends already attempted. -/
def cloudPhase (st : Stats) (tried : List Backend) (cloudAvail : Bool)
    (cloudResp : Option String) : String × Stats × List Backend :=
  if cloudAvail then
    if respTruthy cloudResp then
      (cloudResp.getD "", { st with cloudRequests := st.cloudRequests + 1 },
        tried ++ [Backend.remoteB])
    else
      (apology, { st with cloudFailures := st.cloudFailures + 1 }, tried ++ [Backend.remoteB])
  else (apology, st, tried)

/-- `HybridBrain.chat` (lines 70-105): decide the route; unless the decision
is cloud, try Local first when available (success returns, failure is
counted and falls through); then the cloud leg.  Returns the reply, the
updated stats and the ordered list of backends attempted. -/
def chat (mode : Mode) (b : Brain) (msg : List Char)
    (localResp cloudResp : Option String) : String × Stats × List Backend :=
  if !shouldUseCloud mode b.cloudAvailable msg && b.localAvailable then
    if respTruthy localResp then
      (localResp.getD "", { b.stats with localRequests := b.stats.localRequests + 1 },
        [Backend.localB])
    else
      cloudPhase { b.stats with localFailures := b.stats.localFailures + 1 } [Backend.localB]
        b.cloudAvailable cloudResp
  else cloudPhase b.stats [] b.cloudAvailable cloudResp

/-! ## Streamed dispatch — `HybridBrain.chat_stream` (lines 107-142)

The streaming path (no image) never consults `_should_use_cloud`: if the
cloud is available it streams from the cloud; only when the stream raises
(or the cloud is unavailable) does it fall back to one non-streamed
`self.chat(...)` call, yielding that reply as a single chunk if truthy.
`cloudChunks` are the fragments the cloud stream yields before completing
(`cloudOk = true`) or raising (`cloudOk = false`). -/

/-- A dispatch event of `chat_stream`: the cloud streaming attempt, or the
single non-streamed fallback through `chat` (carrying the backends `chat`
attempted). -/
inductive StreamDispatch
  | streamRemote
  | fallbackChat (attempts : List Backend)
deriving DecidableEq

/-- `HybridBrain.chat_stream` without an image: yielded chunks, final stats
and dispatch events in order. -/
def chatStream (mode : Mode) (b : Brain) (msg : List Char) (cloudChunks : List String)
    (cloudOk : Bool) (localResp cloudResp : Option String) :
    List String × Stats × List StreamDispatch :=
  if b.cloudAvailable then
    if cloudOk then
      (cloudChunks, { b.stats with cloudRequests := b.stats.cloudRequests + 1 },
        [StreamDispatch.streamRemote])
    else
      let fb := chat mode { b with stats :=
        { b.stats with cloudFailures := b.stats.cloudFailures + 1 } } msg localResp cloudResp
      (cloudChunks ++ (if fb.1.isEmpty then [] else [fb.1]), fb.2.1,
        [StreamDispatch.streamRemote, StreamDispatch.fallbackChat fb.2.2])
  else
    let fb := chat mode b msg localResp cloudResp
    ((if fb.1.isEmpty then [] else [fb.1]), fb.2.1, [StreamDispatch.fallbackChat fb.2.2])

/-! ## The conversation history update

`LocalLLM.chat` (lines 114-126) and `CloudFallback.chat` (lines 93-105)
update `self.conversation_history` identically: append the user entry and
the assistant entry, then truncate to the last 10 (`history[-10:]`) when the
length exceeds 10. -/

/-- A history entry role. -/
inductive Role
  | user
  | assistant
deriving DecidableEq

/-- A `(role, content)` history entry. -/
abbrev Entry := Role × String

/-- One successful dispatch's history update: append user and assistant
entries, truncate to the last 10 when longer. -/
def updateHistory (h : List Entry) (msg reply : String) : List Entry :=
  let h₂ := h ++ [(Role.user, msg), (Role.assistant, reply)]
  if 10 < h₂.length then h₂.drop (h₂.length - 10) else h₂

/-! ## Sentence segmentation in `LocalTTS.speak_stream` (lines 180-212)

Per incoming fragment the buffer grows and is scanned once with
`re.search(r'[.!?]\s+', buffer)`: the leftmost terminator followed by
whitespace, the greedy `\s+` absorbing the whole whitespace run.  On a match
the slice up to `match.end()` is stripped and spoken if nonempty, the
remainder kept; when the stream ends, the stripped nonempty remainder is
spoken as the final segment. -/

/-- A sentence-terminating character of the pattern `[.!?]`. -/
def isTermChar (c : Char) : Bool := c == '.' || c == '!' || c == '?'

/-- A whitespace character for `\s` / `str.strip()` (the ASCII ones; the
texts involved contain only spaces). -/
def isWs (c : Char) : Bool := c == ' ' || c == '\t' || c == '\n' || c == '\r'

/-- `re.search(r'[.!?]\s+', s)`: the end offset of the leftmost match — one
past the terminator plus the greedy whitespace run — or `none`. -/
def matchEnd : List Char → Option ℕ
  | [] => none
  | c :: rest =>
    if isTermChar c && (match rest with | r :: _ => isWs r | [] => false) then
      some (1 + (rest.takeWhile isWs).length)
    else (matchEnd rest).map (· + 1)

/-- `str.strip()`: drop whitespace from both ends. -/
def stripWs (s : List Char) : List Char :=
  ((s.dropWhile isWs).reverse.dropWhile isWs).reverse

/-- One fragment arriving in `speak_stream`'s loop: extend the buffer, scan
once; on a match emit the stripped sentence (if nonempty) and keep the
remainder. -/
def segStep (buf chunk : List Char) : List Char × Option (List Char) :=
  let b := buf ++ chunk
  match matchEnd b with
  | some e =>
    let sentence := stripWs (b.take e)
    (b.drop e, if sentence.isEmpty then none else some sentence)
  | none => (b, none)

/-- The `speak_stream` loop over all fragments, collecting spoken segments in
order and returning the leftover buffer. -/
def segRun (buf : List Char) : List (List Char) → List Char × List (List Char)
  | [] => (buf, [])
  | ch :: rest =>
    let p := segStep buf ch
    let q := segRun p.1 rest
    (q.1, p.2.toList ++ q.2)

/-- `speak_stream` end to end: the segments spoken during streaming and the
final stripped-remainder segment spoken after the stream ends (empty list if
the remainder strips to nothing). -/
def speakStream (chunks : List (List Char)) : List (List Char) × List (List Char) :=
  let r := segRun [] chunks
  (r.2, if (stripWs r.1).isEmpty then [] else [stripWs r.1])

/-! ## Auxiliary endpointing lemmas -/

theorem vRun_append (s : VState) (l₁ l₂ : List VIn) :
    vRun s (l₁ ++ l₂) =
      ((vRun (vRun s l₁).1 l₂).1, (vRun s l₁).2 ++ (vRun (vRun s l₁).1 l₂).2) := by
  induction l₁ generalizing s with
  | nil => simp [vRun]
  | cons i is ih => simp [vRun, ih, List.append_assoc]

theorem vRun_singleton (s : VState) (i : VIn) :
    vRun s [i] = ((vStep s i).1, (vStep s i).2.toList) := by
  simp [vRun]

/-- Quiet chunks with the flag clear leave the idle initial state untouched
and finalize nothing. -/
theorem vRun_idle_quiet (pre : List VIn)
    (h : ∀ i ∈ pre, i.flag = false ∧ loud i.chunk = false) :
    vRun VState.init pre = (VState.init, []) := by
  induction pre with
  | nil => rfl
  | cons i is ih =>
    obtain ⟨hf, hq⟩ := h i (List.mem_cons_self i is)
    have hstep : vStep VState.init i = (VState.init, none) := by
      simp [vStep, hf, hq, VState.init]
    simp [vRun, hstep, ih fun j hj => h j (List.mem_cons_of_mem i hj)]

/-- While the loop is speaking, as long as every flag is clear and no
utterance is finalized, every processed chunk is appended to the buffer in
arrival order and the loop stays speaking. -/
theorem vRun_speaking_acc (l : List VIn) : ∀ s : VState, s.isSpeaking = true →
    (∀ i ∈ l, i.flag = false) → (vRun s l).2 = [] →
    (vRun s l).1.isSpeaking = true ∧
      (vRun s l).1.speechBuffer = s.speechBuffer ++ l.map VIn.chunk := by
  induction l with
  | nil => intro s hs _ _; simpa [vRun] using hs
  | cons i is ih =>
    intro s hs hf hfin
    have hfi : i.flag = false := hf i (List.mem_cons_self i is)
    by_cases hl : loud i.chunk
    · have hstep : vStep s i =
          ({ speechBuffer := s.speechBuffer ++ [i.chunk], silenceStart := none,
             isSpeaking := true }, none) := by
        simp [vStep, hfi, hl]
      rw [vRun, hstep] at hfin ⊢
      have := ih _ rfl (fun j hj => hf j (List.mem_cons_of_mem i hj)) (by simpa using hfin)
      simpa [List.append_assoc] using this
    · by_cases hfin1 : silenceLimit < i.now - s.silenceStart.getD i.now
      · exfalso
        have hstep : vStep s i = (VState.init, some (s.speechBuffer ++ [i.chunk])) := by
          simp [vStep, hfi, hl, hs, hfin1]
        rw [vRun, hstep] at hfin
        simp at hfin
      · have hstep : vStep s i =
            (⟨s.speechBuffer ++ [i.chunk], some (s.silenceStart.getD i.now), s.isSpeaking⟩,
              none) := by
          simp [vStep, hfi, hl, hs, hfin1]
        rw [vRun, hstep] at hfin ⊢
        have := ih ⟨s.speechBuffer ++ [i.chunk], some (s.silenceStart.getD i.now), s.isSpeaking⟩
          (by simpa using hs) (fun j hj => hf j (List.mem_cons_of_mem i hj))
          (by simpa using hfin)
        simpa [List.append_assoc] using this

/-- A quiet flag-clear chunk arriving while speaking, with the silence timer
already running and its limit strictly exceeded, finalizes the buffer plus
this chunk and resets the loop. -/
theorem vStep_finalize (s : VState) (i : VIn) (t0 : ℚ) (hf : i.flag = false)
    (hq : loud i.chunk = false) (hs : s.isSpeaking = true)
    (hss : s.silenceStart = some t0) (ht : silenceLimit < i.now - t0) :
    vStep s i = (VState.init, some (s.speechBuffer ++ [i.chunk])) := by
  simp [vStep, hf, hq, hs, hss, ht]

/-! ## C3 — the agent-speaking gate -/

/-- C3: on any chunk processed while the agent-speaking flag is set,
`_process_audio_stream` finalizes nothing, and if the loop was in the
speaking state the in-progress utterance buffer is discarded (emptied) and
the loop leaves the speaking state. -/
theorem agent_flag_aborts_without_finalizing (s : VState) (i : VIn)
    (hf : i.flag = true) :
    (vStep s i).2 = none ∧
      (s.isSpeaking = true →
        (vStep s i).1.speechBuffer = [] ∧ (vStep s i).1.isSpeaking = false) := by
  by_cases hs : s.isSpeaking = true
  · simp [vStep, hf, hs]
  · simp [vStep, hf, hs]

/-- C3 witness: a concrete speaking state with a buffered chunk, hit by a
flagged chunk, finalizes nothing, drops its buffer and stops speaking. -/
theorem agent_flag_aborts_without_finalizing_witness :
    (vStep ⟨[[(1 : ℚ)]], none, true⟩ ⟨[(0 : ℚ)], true, 1⟩).2 = none ∧
      (vStep ⟨[[(1 : ℚ)]], none, true⟩ ⟨[(0 : ℚ)], true, 1⟩).1.speechBuffer = [] ∧
      (vStep ⟨[[(1 : ℚ)]], none, true⟩ ⟨[(0 : ℚ)], true, 1⟩).1.isSpeaking = false := by
  have h := agent_flag_aborts_without_finalizing ⟨[[(1 : ℚ)]], none, true⟩
    ⟨[(0 : ℚ)], true, 1⟩ rfl
  exact ⟨h.1, h.2 rfl⟩

/-! ## C7 — the threshold boundary

The spec claims the comparison is inclusive (`energy ≥ threshold` counts as
speech).  The source compares `volume > self.threshold` strictly, so a chunk
whose RMS is exactly 0.02 is treated as silence. -/

/-- C7 counterexample: the single-sample chunk `[1/50]` has RMS exactly the
threshold (its sum of squares equals `threshold^2 ·` its length), yet when it
arrives in the idle state with the flag clear it is not buffered and the loop
does not enter the speaking state — the step is a no-op, contradicting the
claim that an at-threshold chunk is treated as speech. -/
theorem threshold_boundary_not_inclusive :
    sumSq [(1 / 50 : ℚ)] = threshold * threshold * (([(1 / 50 : ℚ)] : Chunk).length : ℚ) ∧
      vStep VState.init ⟨[(1 / 50 : ℚ)], false, 0⟩ = (VState.init, none) := by
  constructor
  · norm_num [sumSq, threshold]
  · norm_num [vStep, loud, sumSq, threshold, VState.init]

/-- C7 amended: the boundary is exclusive.  A chunk arriving in the idle
state with the flag clear is buffered and moves the loop to the speaking
state iff its RMS energy strictly exceeds the threshold (equivalently, its
sum of squares exceeds `threshold^2 ·` its length); at or below the
threshold the chunk is ignored and the state is unchanged. -/
theorem idle_speech_start_strict (i : VIn) (hf : i.flag = false) :
    (vStep VState.init i =
        ({ speechBuffer := [i.chunk], silenceStart := none, isSpeaking := true }, none) ↔
      threshold * threshold * (i.chunk.length : ℚ) < sumSq i.chunk) ∧
      (sumSq i.chunk ≤ threshold * threshold * (i.chunk.length : ℚ) →
        vStep VState.init i = (VState.init, none)) := by
  by_cases hl : threshold * threshold * (i.chunk.length : ℚ) < sumSq i.chunk
  · constructor
    · simp [vStep, hf, loud, hl, VState.init]
    · intro hle; exact absurd hl (not_lt.mpr hle)
  · constructor
    · constructor
      · intro heq
        exfalso
        have : (VState.init, (none : Option (List Chunk))) =
            ({ speechBuffer := [i.chunk], silenceStart := none, isSpeaking := true }, none) := by
          rw [← heq]; simp [vStep, hf, loud, hl, VState.init]
        simpa [VState.init] using congrArg (fun p => p.1.isSpeaking) this
      · intro h; exact absurd h hl
    · intro _; simp [vStep, hf, loud, hl, VState.init]

/-- C7 amended witness: a chunk strictly above threshold (single sample 1)
starts speech; a chunk exactly at threshold (single sample 1/50) is a
no-op. -/
theorem idle_speech_start_strict_witness :
    vStep VState.init ⟨[(1 : ℚ)], false, 0⟩ =
      ({ speechBuffer := [[(1 : ℚ)]], silenceStart := none, isSpeaking := true }, none) ∧
      vStep VState.init ⟨[(1 / 50 : ℚ)], false, 0⟩ = (VState.init, none) := by
  constructor
  · exact (idle_speech_start_strict ⟨[(1 : ℚ)], false, 0⟩ rfl).1.mpr
      (by norm_num [sumSq, threshold])
  · exact (idle_speech_start_strict ⟨[(1 / 50 : ℚ)], false, 0⟩ rfl).2
      (by norm_num [sumSq, threshold])

/-! ## C4 — exactly one complete utterance per speech-then-silence episode

The scenario quantified over: any number of quiet flag-clear chunks (the
loop idles), then a first above-threshold chunk `c0` (speech starts), then
an arbitrary flag-clear stretch `mid` during which no utterance is finalized,
and a final quiet chunk `last` whose arrival time exceeds the running silence
timer `t0` by more than the silence limit. -/

/-- C4: in the scenario above, the whole run finalizes exactly one utterance,
and it consists of every chunk from the first above-threshold chunk `c0`
through the final trailing-silence chunk `last`, in arrival order; the loop
returns to the initial state. -/
theorem utterance_complete_in_order
    (pre mid : List VIn) (c0 last : VIn) (t0 : ℚ)
    (hpre : ∀ i ∈ pre, i.flag = false ∧ loud i.chunk = false)
    (hc0f : c0.flag = false) (hc0 : loud c0.chunk = true)
    (hmidf : ∀ i ∈ mid, i.flag = false)
    (hnofin : (vRun (vStep VState.init c0).1 mid).2 = [])
    (hss : (vRun (vStep VState.init c0).1 mid).1.silenceStart = some t0)
    (hlastf : last.flag = false) (hlastq : loud last.chunk = false)
    (ht : silenceLimit < last.now - t0) :
    vRun VState.init (pre ++ c0 :: (mid ++ [last])) =
      (VState.init, [(c0 :: (mid ++ [last])).map VIn.chunk]) := by
  have hstep0 : vStep VState.init c0 = (⟨[c0.chunk], none, true⟩, none) := by
    simp [vStep, hc0f, hc0, VState.init]
  obtain ⟨hsp1, hbuf1⟩ := vRun_speaking_acc mid (vStep VState.init c0).1
    (by rw [hstep0]) hmidf hnofin
  have hstepL := vStep_finalize (vRun (vStep VState.init c0).1 mid).1 last t0
    hlastf hlastq hsp1 hss ht
  have h2 : (vStep VState.init c0).2 = none := by rw [hstep0]
  have h3 : (vStep VState.init c0).1.speechBuffer = [c0.chunk] := by rw [hstep0]
  have e1 : vRun VState.init (c0 :: (mid ++ [last])) =
      ((vRun (vStep VState.init c0).1 (mid ++ [last])).1,
        (vStep VState.init c0).2.toList ++
          (vRun (vStep VState.init c0).1 (mid ++ [last])).2) := rfl
  have hrest : vRun VState.init (c0 :: (mid ++ [last])) =
      (VState.init, [(c0 :: (mid ++ [last])).map VIn.chunk]) := by
    rw [e1, vRun_append, vRun_singleton, hstepL, hnofin, h2, hbuf1, h3]
    simp
  rw [vRun_append, vRun_idle_quiet pre hpre, hrest]
  simp

/-- C4 witness: idle quiet chunk at time 0, speech chunk at time 1, one quiet
chunk at time 2 (silence timer starts), final quiet chunk at time 5
(3 s > 2 s of silence): exactly one utterance is finalized and it is the
chunk sequence from the speech chunk through the last quiet chunk. -/
theorem utterance_complete_in_order_witness :
    vRun VState.init
        [⟨[(0 : ℚ)], false, 0⟩, ⟨[(1 : ℚ)], false, 1⟩, ⟨[(0 : ℚ)], false, 2⟩,
          ⟨[(0 : ℚ)], false, 5⟩] =
      (VState.init, [[[(1 : ℚ)], [(0 : ℚ)], [(0 : ℚ)]]]) := by
  have h := utterance_complete_in_order [⟨[(0 : ℚ)], false, 0⟩] [⟨[(0 : ℚ)], false, 2⟩]
    ⟨[(1 : ℚ)], false, 1⟩ ⟨[(0 : ℚ)], false, 5⟩ 2
    (by intro i hi; simp at hi; subst hi; exact ⟨rfl, by norm_num [loud, sumSq, threshold]⟩)
    rfl (by norm_num [loud, sumSq, threshold])
    (by intro i hi; simp at hi; subst hi; rfl)
    (by norm_num [vRun, vStep, loud, sumSq, threshold, silenceLimit, VState.init])
    (by norm_num [vRun, vStep, loud, sumSq, threshold, silenceLimit, VState.init])
    rfl (by norm_num [loud, sumSq, threshold])
    (by norm_num [silenceLimit])
  simpa using h

/-! ## C6 — the host endpointing is not the co-located engine

Counterexample trace: one loud chunk followed by eight quiet chunks, at the
real 0.25 s chunk cadence (chunk `k` processed at time `0.25·k`), with the
agent-speaking flag clear throughout.  The host finalizes on the eighth quiet
chunk (`silence_count` reaches 8); the co-located engine's wall-clock timer
starts at the first quiet chunk (t = 0.25) and on the eighth quiet chunk
(t = 2.0) only 1.75 s < 2.0 s of silence have elapsed, so it does not
finalize.  Fed the same chunks, the two machines finalize at different
points, refuting behavioral identity. -/

/-- Feeding quiet chunks to a host state holding a nonempty buffer counts
them; when the count reaches the threshold exactly at the last chunk, the
whole accumulated buffer is finalized and the handler state resets. -/
theorem hRun_quiet_finalize (qs : List Chunk) : ∀ s : HState, 0 < s.buffer.length →
    s.silenceCount < silenceThreshold →
    (∀ c ∈ qs, loud c = false) → s.silenceCount + qs.length = silenceThreshold →
    hRun s qs = (HState.init, [s.buffer ++ qs]) := by
  induction qs with
  | nil => intro s _ hlt _ hcount; simp at hcount; omega
  | cons c cs ih =>
    intro s hb hlt hq hcount
    have hqc : loud c = false := hq c (List.mem_cons_self c cs)
    by_cases hfin : silenceThreshold ≤ s.silenceCount + 1
    · have hnil : cs = [] := by
        have : s.silenceCount + (cs.length + 1) = silenceThreshold := by
          simpa [List.length_cons, Nat.add_comm, Nat.add_left_comm] using hcount
        have := Nat.le_antisymm hfin (by omega)
        simpa using List.length_eq_zero.mp (by omega)
      subst hnil
      have hstep : hStep s c = (HState.init, some (s.buffer ++ [c])) := by
        simp [hStep, hqc, hb, hfin]
      simp [hRun, hstep]
    · have hstep : hStep s c = (⟨s.buffer ++ [c], s.silenceCount + 1⟩, none) := by
        simp [hStep, hqc, hb, hfin]
      have hrec := ih ⟨s.buffer ++ [c], s.silenceCount + 1⟩ (by simp) (by simpa using hfin)
        (fun d hd => hq d (List.mem_cons_of_mem c hd))
        (by simp at hcount ⊢; omega)
      rw [hRun, hstep]
      simp only [hrec]
      simp [List.append_assoc]

/-- C6 counterexample: on the same nine chunks the host handler finalizes one
utterance (all nine chunks) while the co-located engine finalizes nothing —
the two endpointing implementations are not behaviorally identical. -/
theorem host_endpointing_differs :
    (hRun HState.init hostDemoChunks).2 = [hostDemoChunks] ∧
      (vRun VState.init hostDemoTrace).2 = [] := by
  constructor
  · norm_num [hostDemoChunks, hRun, hStep, HState.init, loud, sumSq, threshold,
      silenceThreshold, List.replicate]
  · norm_num [hostDemoTrace, hostDemoChunks, List.range_succ, vRun, vStep, loud, sumSq,
      threshold, silenceLimit, VState.init, List.replicate]

/-- C6 amended: the host accumulates from the first above-threshold chunk at
the same strict 0.02 RMS threshold, but ends an utterance by chunk count —
after a loud chunk, eight quiet chunks finalize exactly one utterance
containing all nine chunks in order — rather than by the co-located engine's
wall-clock 2.0 s criterion, and it has no agent-speaking gate. -/
theorem host_count_based_finalize (c0 : Chunk) (qs : List Chunk)
    (hc0 : loud c0 = true) (hqs : ∀ c ∈ qs, loud c = false)
    (hlen : qs.length = silenceThreshold) :
    hRun HState.init (c0 :: qs) = (HState.init, [c0 :: qs]) := by
  have hstep : hStep HState.init c0 = (⟨[c0], 0⟩, none) := by
    simp [hStep, hc0, HState.init]
  have hrec := hRun_quiet_finalize qs ⟨[c0], 0⟩ (by simp) (by simp [silenceThreshold]) hqs
    (by simpa using hlen)
  rw [hRun, hstep]
  simp only [hrec]
  simp

/-- C6 amended witness: the loud chunk `[1]` followed by eight quiet `[0]`
chunks finalizes exactly one utterance holding all nine chunks. -/
theorem host_count_based_finalize_witness :
    hRun HState.init ([(1 : ℚ)] :: List.replicate 8 [(0 : ℚ)]) =
      (HState.init, [[(1 : ℚ)] :: List.replicate 8 [(0 : ℚ)]]) := by
  exact host_count_based_finalize [(1 : ℚ)] (List.replicate 8 [(0 : ℚ)])
    (by norm_num [loud, sumSq, threshold])
    (by intro c hc; rw [List.eq_of_mem_replicate hc]; norm_num [loud, sumSq, threshold])
    (by simp [silenceThreshold])

/-! ## C1 — the duplex audio reply round trip -/

/-- C1, evaluated at the failing input: the one-sample reply buffer holding
float64 1.0 (bit pattern `0x3FF0000000000000`).  The edge decodes the frame
into TWO float32 bit patterns, `0x00000000` and `0x3FF00000` — neither the
sample count nor any sample matches the source buffer (float32 1.0 would be
`0x3F800000`), so the round trip is not bit-identical. -/
theorem duplex_roundtrip_dtype_mismatch :
    edgeDecodeAudio (hostSerializeAudio [4607182418800017408]) = [0, 1072693248] ∧
      [(4607182418800017408 : ℕ)].length = 1 := by
  constructor
  · rfl
  · rfl

/-! ## C5 — mode semantics of the routing decision -/

/-- C5: Speed always decides Local whatever the text; Quality always decides
Remote; in Balanced, a message containing "comprehensive" (after
lowercasing, i.e. case-insensitively) decides Remote iff Remote is
available, else Local. -/
theorem routing_mode_semantics (msg : List Char) (avail : Bool) :
    routeDecision Mode.speed avail msg = Backend.localB ∧
      routeDecision Mode.quality avail msg = Backend.remoteB ∧
      (hasSub "comprehensive".data (lowerStr msg) = true →
        routeDecision Mode.balanced avail msg =
          if avail then Backend.remoteB else Backend.localB) := by
  refine ⟨rfl, rfl, fun h => ?_⟩
  have hany : (complexityKeywords.any fun kw => hasSub kw (lowerStr msg)) = true :=
    List.any_eq_true.mpr ⟨"comprehensive".data, by simp [complexityKeywords], h⟩
  cases avail <;> simp [routeDecision, shouldUseCloud, hany]

/-- C5 witness at a concrete message containing "COMPREHENSIVE" in capitals:
the Balanced decision equals availability in both availability cases, and
the Speed/Quality decisions are Local/Remote. -/
theorem routing_mode_semantics_witness :
    routeDecision Mode.speed true "Give a COMPREHENSIVE summary".data = Backend.localB ∧
      routeDecision Mode.quality false "Give a COMPREHENSIVE summary".data = Backend.remoteB ∧
      routeDecision Mode.balanced true "Give a COMPREHENSIVE summary".data = Backend.remoteB ∧
      routeDecision Mode.balanced false "Give a COMPREHENSIVE summary".data =
        Backend.localB := by
  refine ⟨(routing_mode_semantics "Give a COMPREHENSIVE summary".data true).1,
    (routing_mode_semantics "Give a COMPREHENSIVE summary".data false).2.1, ?_, ?_⟩
  · have := (routing_mode_semantics "Give a COMPREHENSIVE summary".data true).2.2 (by decide)
    simpa using this
  · have := (routing_mode_semantics "Give a COMPREHENSIVE summary".data false).2.2 (by decide)
    simpa using this

/-! ## C2 — fallback is one-directional

`chat` only falls back Local → Remote.  When the decision selects Remote
first (e.g. Quality mode) and Remote fails, the Local branch was already
skipped and the function returns the apology without ever attempting
Local. -/

/-- C2 counterexample: Quality mode, both backends available, Local would
answer "hi", Remote fails.  The claim requires one fallback attempt on Local
whose outcome ("hi") determines the Reply; the code records a Remote failure
and returns the apology having attempted only Remote. -/
theorem fallback_one_directional :
    chat Mode.quality ⟨true, true, ⟨0, 0, 0, 0⟩⟩ "hello".data (some "hi") none =
      (apology, ⟨0, 0, 0, 1⟩, [Backend.remoteB]) := rfl

/-- C2 amended: fallback exists only in the Local-to-Remote direction.  When
Local is selected first, is available and fails while Remote is available,
exactly one fallback attempt (on Remote) occurs, a failure is recorded for
Local, and the fallback attempt's outcome determines the Reply.  When Remote
is selected first, is available and fails, no Local attempt occurs: a Remote
failure is recorded and the fixed apology is returned. -/
theorem fallback_local_to_remote_only (mode : Mode) (b : Brain) (msg : List Char)
    (lr cr : Option String) :
    (shouldUseCloud mode b.cloudAvailable msg = false → b.localAvailable = true →
      respTruthy lr = false → b.cloudAvailable = true →
      (chat mode b msg lr cr).2.2 = [Backend.localB, Backend.remoteB] ∧
        (chat mode b msg lr cr).2.1.localFailures = b.stats.localFailures + 1 ∧
        (chat mode b msg lr cr).1 = (if respTruthy cr then cr.getD "" else apology)) ∧
      (shouldUseCloud mode b.cloudAvailable msg = true → b.cloudAvailable = true →
        respTruthy cr = false →
        (chat mode b msg lr cr).2.2 = [Backend.remoteB] ∧
          (chat mode b msg lr cr).2.1.cloudFailures = b.stats.cloudFailures + 1 ∧
          (chat mode b msg lr cr).1 = apology) := by
  constructor
  · intro hroute hloc hlr hcloud
    rw [hcloud] at hroute
    by_cases hcr : respTruthy cr = true <;>
      simp [chat, cloudPhase, hroute, hloc, hlr, hcloud, hcr]
  · intro hroute hcloud hcr
    rw [hcloud] at hroute
    simp [chat, cloudPhase, hroute, hcloud, hcr]

/-- C2 amended witness: Speed mode with a failing Local and a succeeding
Remote yields the Local-then-Remote attempt list, one recorded Local failure
and the Remote reply; Quality mode with a failing Remote yields the single
Remote attempt, one recorded Remote failure and the apology. -/
theorem fallback_local_to_remote_only_witness :
    ((chat Mode.speed ⟨true, true, ⟨0, 0, 0, 0⟩⟩ "hey".data none (some "ok")).2.2 =
        [Backend.localB, Backend.remoteB] ∧
      (chat Mode.speed ⟨true, true, ⟨0, 0, 0, 0⟩⟩ "hey".data none (some "ok")).2.1.localFailures =
        0 + 1 ∧
      (chat Mode.speed ⟨true, true, ⟨0, 0, 0, 0⟩⟩ "hey".data none (some "ok")).1 =
        (if respTruthy (some "ok") then (some "ok").getD "" else apology)) ∧
      ((chat Mode.quality ⟨true, true, ⟨0, 0, 0, 0⟩⟩ "hey".data (some "hi") none).2.2 =
          [Backend.remoteB] ∧
        (chat Mode.quality ⟨true, true, ⟨0, 0, 0, 0⟩⟩ "hey".data
            (some "hi") none).2.1.cloudFailures = 0 + 1 ∧
        (chat Mode.quality ⟨true, true, ⟨0, 0, 0, 0⟩⟩ "hey".data (some "hi") none).1 =
          apology) :=
  ⟨(fallback_local_to_remote_only Mode.speed ⟨true, true, ⟨0, 0, 0, 0⟩⟩ "hey".data none
      (some "ok")).1 rfl rfl rfl rfl,
    (fallback_local_to_remote_only Mode.quality ⟨true, true, ⟨0, 0, 0, 0⟩⟩ "hey".data
      (some "hi") none).2 rfl rfl rfl⟩

/-! ## C10 — streamed dispatch ignores the routing mode -/

/-- C10: with the cloud available, streamed chat always streams from Remote
regardless of mode and text — on a completed stream the result (chunks,
stats bump, single Remote streaming dispatch) is the same for every mode and
message, with no Local involvement; only after a Remote streaming failure
does a single non-streamed fallback through `chat` follow the streaming
attempt. -/
theorem stream_always_remote (mode mode' : Mode) (b : Brain) (msg msg' : List Char)
    (cloudChunks : List String) (lr cr : Option String)
    (hc : b.cloudAvailable = true) :
    (chatStream mode b msg cloudChunks true lr cr =
        (cloudChunks, { b.stats with cloudRequests := b.stats.cloudRequests + 1 },
          [StreamDispatch.streamRemote])) ∧
      chatStream mode b msg cloudChunks true lr cr =
        chatStream mode' b msg' cloudChunks true lr cr ∧
      chatStream mode b msg cloudChunks false lr cr =
        (cloudChunks ++
            (if (chat mode { b with stats :=
                { b.stats with cloudFailures := b.stats.cloudFailures + 1 } } msg lr cr).1.isEmpty
              then [] else
                [(chat mode { b with stats :=
                  { b.stats with cloudFailures := b.stats.cloudFailures + 1 } } msg lr cr).1]),
          (chat mode { b with stats :=
            { b.stats with cloudFailures := b.stats.cloudFailures + 1 } } msg lr cr).2.1,
          [StreamDispatch.streamRemote,
            StreamDispatch.fallbackChat (chat mode { b with stats :=
              { b.stats with cloudFailures := b.stats.cloudFailures + 1 } } msg lr cr).2.2]) := by
  refine ⟨?_, ?_, ?_⟩ <;> simp [chatStream, hc]

/-- C10 witness: Speed mode (which routes Local for non-streamed chat) still
streams from Remote when the cloud is available, identically to Quality
mode; and after a stream failure the fallback dispatch follows. -/
theorem stream_always_remote_witness :
    (chatStream Mode.speed ⟨true, true, ⟨0, 0, 0, 0⟩⟩ "hello".data ["a", "b"] true none
        (some "x") = (["a", "b"], ⟨0, 1, 0, 0⟩, [StreamDispatch.streamRemote])) ∧
      chatStream Mode.speed ⟨true, true, ⟨0, 0, 0, 0⟩⟩ "hello".data ["a", "b"] true none
          (some "x") =
        chatStream Mode.quality ⟨true, true, ⟨0, 0, 0, 0⟩⟩ "analyze this".data ["a", "b"] true
          none (some "x") := by
  have h := stream_always_remote Mode.speed Mode.quality ⟨true, true, ⟨0, 0, 0, 0⟩⟩
    "hello".data "analyze this".data ["a", "b"] none (some "x") rfl
  exact ⟨h.1, h.2.1⟩

/-! ## C8 — the conversation history is bounded -/

theorem updateHistory_length_le (h : List Entry) (msg reply : String)
    (hb : h.length ≤ 10) : (updateHistory h msg reply).length ≤ 10 := by
  unfold updateHistory
  by_cases hlen : 10 < (h ++ [(Role.user, msg), (Role.assistant, reply)]).length
  · rw [if_pos hlen]
    simp only [List.length_drop, List.length_append, List.length_cons, List.length_nil] at *
    omega
  · rw [if_neg hlen]
    simp only [List.length_append, List.length_cons, List.length_nil, not_lt] at *
    omega

/-- C8: starting from the empty history, after any sequence of successful
dispatches (each appending its user and assistant entries and truncating),
the conversation history holds at most 10 entries. -/
theorem history_never_exceeds_ten (turns : List (String × String)) :
    (turns.foldl (fun h t => updateHistory h t.1 t.2) []).length ≤ 10 := by
  suffices h : ∀ start : List Entry, start.length ≤ 10 →
      (turns.foldl (fun h t => updateHistory h t.1 t.2) start).length ≤ 10 by
    exact h [] (by simp)
  induction turns with
  | nil => intro start hs; simpa using hs
  | cons t ts ih =>
    intro start hs
    exact ih (updateHistory start t.1 t.2) (updateHistory_length_le start t.1 t.2 hs)

/-! ## C9 — the sentence segmenter on the specified text -/

/-- C9: feeding "Hi there. How are you? Fine" as sequential fragments yields
exactly the segments "Hi there." and "How are you?" during streaming, in
text order, and the final segment "Fine" after the stream ends. -/
theorem segmenter_example :
    speakStream ["Hi ".data, "there. ".data, "How ".data, "are ".data, "you? ".data,
        "Fine".data] =
      (["Hi there.".data, "How are you?".data], ["Fine".data]) := by
  decide

end Syca
